import Mathlib

/-!
SlotInsight analytics engine — a shallow embedding.

Shallow embedding of the analytics core of `app.py` (a pandas/streamlit
slot-game dashboard).  DataFrames of transactions are modelled as
`List Tx`; pandas column operations become list operations:
`df[df.amount < 0]` is `List.filter`, `.sum()` is `List.sum` over the
mapped column, `.searchsorted(t, side='right')` on a sorted column is the
count of entries `≤ t`, `sort_values` is `insertionSort`, `groupby` is
iteration over the deduplicated key column, and Python `set`s of user ids
are `Finset ℕ`.  Monetary amounts are exact rationals `ℚ` (the Python
floats carry exact token values here); timestamps are `Int` seconds, and
`.dt.date` is flooring division by 86400.  Pandas float NaN — which in
this program arises only from `Series.std()` on fewer than two values —
is modelled as `Option.none`.
-/

/-- One ledger line of the uploaded Excel file (one row of `df`).
`amount` is signed: negative = bet (stake magnitude), positive = win. -/
structure Tx where
  id : Nat
  create_date : Int
  user_id : Nat
  gid : Nat
  amount : ℚ
deriving DecidableEq, Repr

/-- From `app.py` line 199: `filtered_df['create_date'].dt.date` — the calendar
date of a timestamp, modelled as flooring division of epoch-seconds by
86400 (a monotone coarsening, which is all the code relies on). -/
def date_str (r : Tx) : Int := r.create_date.fdiv 86400

/-- From `app.py` line 163: `bet_df = filtered_df[filtered_df['amount'] < 0]`. -/
def bet_df (txs : List Tx) : List Tx := txs.filter (fun r => decide (r.amount < 0))

/-- From `app.py` line 164: `win_df = filtered_df[filtered_df['amount'] > 0]`. -/
def win_df (txs : List Tx) : List Tx := txs.filter (fun r => decide (0 < r.amount))

/-- From `app.py` line 167: `spin_count = len(bet_df)`. -/
def spin_count (txs : List Tx) : Nat := (bet_df txs).length

/-- From `app.py` line 168: `total_turnover = abs(bet_df['amount'].sum())`. -/
def total_turnover (txs : List Tx) : ℚ := |((bet_df txs).map (·.amount)).sum|

/-- From `app.py` line 169: `avg_bet = total_turnover / spin_count if spin_count > 0 else 0`. -/
def avg_bet (txs : List Tx) : ℚ :=
  if 0 < spin_count txs then total_turnover txs / (spin_count txs : ℚ) else 0

/-- From `app.py` line 177: `total_payout = win_df['amount'].sum()`. -/
def total_payout (txs : List Tx) : ℚ := ((win_df txs).map (·.amount)).sum

/-- From `app.py` line 178: `ggr = total_turnover - total_payout`. -/
def ggr (txs : List Tx) : ℚ := total_turnover txs - total_payout txs

/-- From `app.py` line 180:
`rtp = (total_payout / total_turnover * 100) if total_turnover > 0 else 0.0`. -/
def rtp (txs : List Tx) : ℚ :=
  if 0 < total_turnover txs then total_payout txs / total_turnover txs * 100 else 0

/-- From `app.py` line 181:
`win_rate = (len(win_df) / spin_count * 100) if spin_count > 0 else 0.0`
(the global hit rate). -/
def win_rate (txs : List Tx) : ℚ :=
  if 0 < spin_count txs then ((win_df txs).length : ℚ) / (spin_count txs : ℚ) * 100 else 0

/-- From `app.py` line 59 (and identically per user elsewhere):
`total_bet = abs(user_data[user_data['amount'] < 0]['amount'].sum())`. -/
def user_total_bet (user_data : List Tx) : ℚ := |((bet_df user_data).map (·.amount)).sum|

/-- From `app.py` line 60: `total_pnl = user_data['amount'].sum()`. -/
def user_total_pnl (user_data : List Tx) : ℚ := (user_data.map (·.amount)).sum

/-- From `app.py` lines 58–70 of `calculate_user_tags`: the `tags` list built by
the two `if` chains — at most one size tag ("Whale"/"Minnow"), then exactly
one result tag ("Winner"/"Loser"). -/
def user_tags_list (user_data : List Tx) (all_avg_bet : ℚ) : List String :=
  (if all_avg_bet * 10 < user_total_bet user_data then ["Whale (大R)"]
   else if user_total_bet user_data < all_avg_bet * (1/10) then ["Minnow (小R)"]
   else [])
  ++ [if 0 < user_total_pnl user_data then "Winner (赢家)" else "Loser (输家)"]

/-- From `app.py` line 72: `return " | ".join(tags)`. -/
def calculate_user_tags (user_data : List Tx) (all_avg_bet : ℚ) : String :=
  String.intercalate " | " (user_tags_list user_data all_avg_bet)

/-- From `app.py` line 622: the Raw Data tab shows
`filtered_df[cols].sort_values('create_date', ascending=False)` — every
filtered row, sorted by time descending, no amount-sign filtering. -/
def display_df (txs : List Tx) : List Tx :=
  List.insertionSort (fun a b => b.create_date ≤ a.create_date) txs

/-! ## Game Performance Analyzer (`analyze_game_performance`, lines 259–292) -/

/-- The rows of one `groupby('gid')` group: the filtered transactions of
game `g`. -/
def game_rows (txs : List Tx) (g : Nat) : List Tx :=
  txs.filter (fun r => decide (r.gid = g))

/-- From `app.py` line 266:
`avg_bet_game = abs(game_bet_df['amount'].mean()) if not game_bet_df.empty else 1`. -/
def avg_bet_game (x : List Tx) : ℚ :=
  if bet_df x = [] then 1
  else |((bet_df x).map (·.amount)).sum / ((bet_df x).length : ℚ)|

/-- From `app.py` line 271: `multipliers = game_win_df['amount'] / avg_bet_game`. -/
def multipliers (x : List Tx) : List ℚ :=
  (win_df x).map (fun r => r.amount / avg_bet_game x)

/-- Line 274 band test: `(multipliers > 0) & (multipliers <= 5)`. -/
def small_cond (m : ℚ) : Bool := decide (0 < m) && decide (m ≤ 5)

/-- Line 275 band test: `(multipliers > 5) & (multipliers <= 20)`. -/
def big_cond (m : ℚ) : Bool := decide (5 < m) && decide (m ≤ 20)

/-- Line 276 band test: `(multipliers > 20) & (multipliers <= 50)`. -/
def mega_cond (m : ℚ) : Bool := decide (20 < m) && decide (m ≤ 50)

/-- Line 277 band test: `multipliers > 50`. -/
def super_cond (m : ℚ) : Bool := decide (50 < m)

/-- The `groupby('user_id')` keys of a row set: the distinct user ids. -/
def users_of (l : List Tx) : List Nat := (l.map (·.user_id)).dedup

/-- The rows of one user's group. -/
def user_rows (l : List Tx) (u : Nat) : List Tx :=
  l.filter (fun r => decide (r.user_id = u))

/-- The ddof=1 sample variance `Σ(x − x̄)² / (n − 1)` of a list of values
(the square of the sample standard deviation). -/
def sample_variance (xs : List ℚ) : ℚ :=
  ((xs.map (fun v => (v - xs.sum / (xs.length : ℚ)) ^ 2)).sum) / ((xs.length : ℚ) - 1)

/-- Models pandas `Series.std()` (default ddof=1), used at `app.py` line 284.
Float NaN — produced whenever fewer than two values are present — is
modelled as `none`.  Because the exact square root leaves ℚ, the carried
value is the *square* of the standard deviation (the sample variance),
which determines it. -/
def series_std_sq (xs : List ℚ) : Option ℚ :=
  if 2 ≤ xs.length then some (sample_variance xs) else none

/-- The row returned by `analyze_game_performance` (`pd.Series`,
lines 279–292). -/
structure GameStats where
  turnover : ℚ
  payout : ℚ
  ggr : ℚ
  rtp : ℚ
  volatility : Option ℚ
  hit_rate : ℚ
  winner_pct : ℚ
  small_win : Nat
  big_win : Nat
  mega_win : Nat
  super_win : Nat
  avg_multiplier : ℚ
deriving DecidableEq, Repr

/-- From `app.py` lines 259–292: per-game KPIs over one `gid` group `x`. -/
def analyze_game_performance (x : List Tx) : GameStats :=
  let turnover := |((bet_df x).map (·.amount)).sum|
  let payout := ((win_df x).map (·.amount)).sum
  let winner_count := (users_of x).countP (fun u => decide (0 < user_total_pnl (user_rows x u)))
  { turnover := turnover
    payout := payout
    ggr := turnover - payout
    rtp := if 0 < turnover then payout / turnover * 100 else 0
    volatility := series_std_sq (x.map (·.amount))
    hit_rate := if bet_df x = [] then 0
      else ((win_df x).length : ℚ) / ((bet_df x).length : ℚ) * 100
    winner_pct := if 0 < (users_of x).length then
        (winner_count : ℚ) / ((users_of x).length : ℚ) * 100 else 0
    small_win := (multipliers x).countP small_cond
    big_win := (multipliers x).countP big_cond
    mega_win := (multipliers x).countP mega_cond
    super_win := (multipliers x).countP super_cond
    avg_multiplier := if multipliers x = [] then 0
      else (multipliers x).sum / ((multipliers x).length : ℚ) }

/-! ## Cohort & Retention Calculator (lines 199–222) -/

/-- From `set(filtered_df[filtered_df['date_str'] == day]['user_id'])`
(lines 215–216): the set of users active on calendar day `d`. -/
def users_on (txs : List Tx) (d : Int) : Finset ℕ :=
  ((txs.filter (fun r => decide (date_str r = d))).map (·.user_id)).toFinset

/-- From `app.py` line 210: `unique_dates = sorted(filtered_df['date_str'].unique())`. -/
def unique_dates (txs : List Tx) : List Int :=
  List.insertionSort (fun a b : Int => a ≤ b) ((txs.map date_str).dedup)

/-- From `app.py` lines 209–220: the retention loop over chronologically
adjacent distinct active dates.  Each entry is
`(date, retention_rate)` with
`rate = retained / len(users_current) * 100` guarded to `0`. -/
def retention_data (txs : List Tx) : List (Int × ℚ) :=
  ((unique_dates txs).zip (unique_dates txs).tail).map (fun q =>
    (q.1,
     if 0 < (users_on txs q.1).card then
       (((users_on txs q.1) ∩ (users_on txs q.2)).card : ℚ) /
         ((users_on txs q.1).card : ℚ) * 100
     else 0))

/-- From `app.py` line 222:
`avg_retention = np.mean([x['retention_rate'] for x in retention_data]) if retention_data else 0`. -/
def avg_retention (txs : List Tx) : ℚ :=
  if retention_data txs = [] then 0
  else ((retention_data txs).map Prod.snd).sum / ((retention_data txs).length : ℚ)

/-! ## Temporal Replay Engine (lines 397–505) -/

/-- Time ordering on transactions, the `sort_values('create_date')` key. -/
def byTime (a b : Tx) : Prop := a.create_date ≤ b.create_date

instance : DecidableRel byTime :=
  fun a b => (inferInstance : Decidable (a.create_date ≤ b.create_date))

instance : IsTotal Tx byTime := ⟨fun a b => Int.le_total a.create_date b.create_date⟩

instance : IsTrans Tx byTime := ⟨fun _ _ _ h1 h2 => le_trans h1 h2⟩

/-- From `app.py` line 400: `sorted_df = filtered_df[...].sort_values('create_date')`. -/
def sorted_df (txs : List Tx) : List Tx := List.insertionSort byTime txs

/-- From `app.py` line 463:
`idx = sorted_df['create_date'].searchsorted(curr_time, side='right')`.
On a column sorted ascending, the right-biased insertion index is the
number of entries `≤ t` (every entry strictly before it is `≤ t`, every
entry at or after it is `> t`). -/
def searchsorted_right (l : List Tx) (t : Int) : Nat :=
  l.countP (fun r => decide (r.create_date ≤ t))

/-- From `app.py` line 464: `subset_df = sorted_df.iloc[:idx]`. -/
def subset_df (txs : List Tx) (t : Int) : List Tx :=
  (sorted_df txs).take (searchsorted_right (sorted_df txs) t)

/-- pandas `Series.min()` over an `Int` column (`0` on an empty series,
which the program never queries). -/
def series_min : List Int → Int
  | [] => 0
  | x :: xs => xs.foldl min x

/-- pandas `Series.max()` over an `Int` column. -/
def series_max : List Int → Int
  | [] => 0
  | x :: xs => xs.foldl max x

/-- From `app.py` line 401: `min_time = sorted_df['create_date'].min()`. -/
def min_time (txs : List Tx) : Int := series_min ((sorted_df txs).map (·.create_date))

/-- From `app.py` line 402: `max_time = sorted_df['create_date'].max()`. -/
def max_time (txs : List Tx) : Int := series_max ((sorted_df txs).map (·.create_date))

/-- pandas `Series.min()` over a ℚ column. -/
def series_min_q : List ℚ → ℚ
  | [] => 0
  | x :: xs => xs.foldl min x

/-- pandas `Series.max()` over a ℚ column. -/
def series_max_q : List ℚ → ℚ
  | [] => 0
  | x :: xs => xs.foldl max x

/-- The `cum_bet = abs(x[x < 0].sum())` of one user's amount series
(lines 426, 468). -/
def cum_bet_of (l : List Tx) (u : Nat) : ℚ := user_total_bet (user_rows l u)

/-- The `cum_pnl = 'sum'` of one user's amount series (lines 427, 469). -/
def cum_pnl_of (l : List Tx) (u : Nat) : ℚ := user_total_pnl (user_rows l u)

/-- From `app.py` lines 425–428: `final_user_agg = sorted_df.groupby('user_id')
['amount'].agg(cum_bet=..., cum_pnl=...)` — one `(user_id, cum_bet,
cum_pnl)` row per distinct user of `l`. -/
def final_user_agg (l : List Tx) : List (Nat × ℚ × ℚ) :=
  (users_of l).map (fun u => (u, cum_bet_of l u, cum_pnl_of l u))

/-- From `app.py` line 421:
`max_bet_all = total_turnover * 0.1 if total_turnover > 0 else 1000`. -/
def max_bet_fallback (txs : List Tx) : ℚ :=
  if 0 < total_turnover txs then total_turnover txs * (1/10) else 1000

/-- From `app.py` lines 420–432: the axis bounds `(max_bet_all, min_pnl_all,
max_pnl_all)` computed once per filter from the full (unsliced) final
aggregate, overriding the fallback `(max_bet_fallback, 0, 0)` whenever
the sorted set (hence the aggregate) is nonempty. -/
def axis_bounds (txs : List Tx) : ℚ × ℚ × ℚ :=
  if sorted_df txs = [] then (max_bet_fallback txs, 0, 0)
  else if final_user_agg (sorted_df txs) = [] then (max_bet_fallback txs, 0, 0)
  else
    (series_max_q ((final_user_agg (sorted_df txs)).map (fun p => p.2.1)) * (11/10),
     series_min_q ((final_user_agg (sorted_df txs)).map (fun p => p.2.2)) * (11/10),
     series_max_q ((final_user_agg (sorted_df txs)).map (fun p => p.2.2)) * (11/10))

/-- The scatter figure produced by `plot_snapshot`: the per-user snapshot
table (with the Winner/Loser colour label) and the fixed axis ranges. -/
structure Snapshot where
  users : List (Nat × ℚ × ℚ × String)
  range_x : ℚ × ℚ
  range_y : ℚ × ℚ
deriving DecidableEq, Repr

/-- From `app.py` lines 461–483, `plot_snapshot(curr_time)`: slice the sorted
view at the right-biased insertion index for `t`, aggregate per user,
label winners, wire in the session-wide axis bounds; return `None` when
the slice is empty. -/
def plot_snapshot (txs : List Tx) (t : Int) : Option Snapshot :=
  if subset_df txs t = [] then none
  else some
    { users := (users_of (subset_df txs t)).map (fun u =>
        (u, cum_bet_of (subset_df txs t) u, cum_pnl_of (subset_df txs t) u,
         if 0 < cum_pnl_of (subset_df txs t) u then "Winner (赢)" else "Loser (输)"))
      range_x := (0, (axis_bounds txs).1)
      range_y := ((axis_bounds txs).2.1, (axis_bounds txs).2.2) }

/-! ## Helper lemmas -/

/-- A nonempty list of negative rationals has negative sum. -/
theorem sum_neg_of_all_neg : ∀ (l : List ℚ), l ≠ [] → (∀ a ∈ l, a < 0) → l.sum < 0 := by
  intro l
  induction l with
  | nil => intro h; exact absurd rfl h
  | cons a t ih =>
    intro _ h
    rcases List.eq_nil_or_concat t with ht | _
    · simp [ht, h a (List.mem_cons_self a t)]
    · have hts : t.sum < 0 := by
        apply ih
        · rintro rfl; simp_all
        · exact fun b hb => h b (List.mem_cons_of_mem a hb)
      have ha := h a (List.mem_cons_self a t)
      simpa using add_neg ha hts

/-- The per-game average bet is strictly positive (it is `1` when the game
has no bets, otherwise the absolute value of a negative mean). -/
theorem avg_bet_game_pos (x : List Tx) : 0 < avg_bet_game x := by
  unfold avg_bet_game
  split
  · norm_num
  · rename_i hne
    have hneg : ((bet_df x).map (·.amount)).sum < 0 := by
      apply sum_neg_of_all_neg
      · simpa using hne
      · intro a ha
        obtain ⟨r, hr, rfl⟩ := List.mem_map.mp ha
        simpa [bet_df] using (by simpa using List.of_mem_filter hr : r.amount < 0)
    have hlen : (0 : ℚ) < ((bet_df x).length : ℚ) := by
      have : bet_df x ≠ [] := hne
      have : 0 < (bet_df x).length := List.length_pos.mpr this
      exact_mod_cast this
    have : ((bet_df x).map (·.amount)).sum / ((bet_df x).length : ℚ) < 0 :=
      div_neg_of_neg_of_pos hneg hlen
    exact abs_pos.mpr (ne_of_lt this)

/-- Every element of the multiplier series is strictly positive. -/
theorem multipliers_pos (x : List Tx) : ∀ m ∈ multipliers x, 0 < m := by
  intro m hm
  obtain ⟨r, hr, rfl⟩ := List.mem_map.mp hm
  have hra : 0 < r.amount := by simpa [win_df] using List.of_mem_filter hr
  exact div_pos hra (avg_bet_game_pos x)

/-- On a list of positive values the four band conditions are mutually
exclusive and exhaustive, so their counts add up to the length. -/
theorem count_bands (L : List ℚ) (h : ∀ m ∈ L, 0 < m) :
    L.countP small_cond + L.countP big_cond + L.countP mega_cond + L.countP super_cond
      = L.length := by
  induction L with
  | nil => simp
  | cons m t ih =>
    have hm : 0 < m := h m (List.mem_cons_self m t)
    have ht := ih (fun a ha => h a (List.mem_cons_of_mem m ha))
    rcases le_or_lt m 5 with h5 | h5
    · have e1 : small_cond m = true := by simp [small_cond, hm, h5]
      have e2 : big_cond m = false := by simp [big_cond, not_lt.mpr h5]
      have e3 : mega_cond m = false := by
        have hx : ¬ 20 < m := by linarith
        simp [mega_cond, hx]
      have e4 : super_cond m = false := by
        have hx : ¬ 50 < m := by linarith
        simp [super_cond, hx]
      simp [List.countP_cons, e1, e2, e3, e4]
      omega
    · rcases le_or_lt m 20 with h20 | h20
      · have e1 : small_cond m = false := by simp [small_cond, not_le.mpr h5]
        have e2 : big_cond m = true := by simp [big_cond, h5, h20]
        have e3 : mega_cond m = false := by
          have hx : ¬ 20 < m := by linarith
          simp [mega_cond, hx]
        have e4 : super_cond m = false := by
          have hx : ¬ 50 < m := by linarith
          simp [super_cond, hx]
        simp [List.countP_cons, e1, e2, e3, e4]
        omega
      · rcases le_or_lt m 50 with h50 | h50
        · have e1 : small_cond m = false := by
            have hx : ¬ m ≤ 5 := by linarith
            simp [small_cond, hx]
          have e2 : big_cond m = false := by simp [big_cond, not_le.mpr h20]
          have e3 : mega_cond m = true := by simp [mega_cond, h20, h50]
          have e4 : super_cond m = false := by simp [super_cond, not_lt.mpr h50]
          simp [List.countP_cons, e1, e2, e3, e4]
          omega
        · have e1 : small_cond m = false := by
            have hx : ¬ m ≤ 5 := by linarith
            simp [small_cond, hx]
          have e2 : big_cond m = false := by
            have hx : ¬ m ≤ 20 := by linarith
            simp [big_cond, hx]
          have e3 : mega_cond m = false := by
            have hx : ¬ m ≤ 50 := by linarith
            simp [mega_cond, hx]
          have e4 : super_cond m = true := by simp [super_cond, h50]
          simp [List.countP_cons, e1, e2, e3, e4]
          omega

/-- The `foldl max` fold dominates its seed and every element. -/
theorem foldl_max_spec : ∀ (xs : List Int) (a : Int),
    a ≤ xs.foldl max a ∧ ∀ b ∈ xs, b ≤ xs.foldl max a := by
  intro xs
  induction xs with
  | nil => intro a; exact ⟨le_refl a, by simp⟩
  | cons x t ih =>
    intro a
    have h := ih (max a x)
    refine ⟨le_trans (le_max_left a x) h.1, ?_⟩
    intro b hb
    rcases List.mem_cons.mp hb with rfl | hbt
    · exact le_trans (le_max_right a b) h.1
    · exact h.2 b hbt

/-- The `foldl min` fold is below its seed and every element. -/
theorem foldl_min_spec : ∀ (xs : List Int) (a : Int),
    xs.foldl min a ≤ a ∧ ∀ b ∈ xs, xs.foldl min a ≤ b := by
  intro xs
  induction xs with
  | nil => intro a; exact ⟨le_refl a, by simp⟩
  | cons x t ih =>
    intro a
    have h := ih (min a x)
    refine ⟨le_trans h.1 (min_le_left a x), ?_⟩
    intro b hb
    rcases List.mem_cons.mp hb with rfl | hbt
    · exact le_trans h.1 (min_le_right a b)
    · exact h.2 b hbt

/-- The `foldl min` fold is its seed or one of the elements. -/
theorem foldl_min_mem : ∀ (xs : List Int) (a : Int),
    xs.foldl min a = a ∨ xs.foldl min a ∈ xs := by
  intro xs
  induction xs with
  | nil => intro a; exact Or.inl rfl
  | cons x t ih =>
    intro a
    rcases ih (min a x) with h | h
    · rcases min_choice a x with hc | hc
      · exact Or.inl (by rw [List.foldl_cons, h, hc])
      · exact Or.inr (by rw [List.foldl_cons, h, hc]; exact List.mem_cons_self x t)
    · exact Or.inr (List.mem_cons_of_mem x h)

/-- The sorted view is a permutation of the filtered set. -/
theorem sorted_df_perm (txs : List Tx) : (sorted_df txs).Perm txs :=
  List.perm_insertionSort byTime txs

/-- The sorted view is sorted ascending by timestamp. -/
theorem sorted_df_sorted (txs : List Tx) : (sorted_df txs).Sorted byTime :=
  List.sorted_insertionSort byTime txs

/-- Every filtered transaction's timestamp is at most `max_time`. -/
theorem le_max_time (txs : List Tx) : ∀ r ∈ txs, r.create_date ≤ max_time txs := by
  intro r hr
  have hr' : r.create_date ∈ (sorted_df txs).map (·.create_date) :=
    List.mem_map_of_mem _ ((sorted_df_perm txs).mem_iff.mpr hr)
  unfold max_time
  cases hml : (sorted_df txs).map (·.create_date) with
  | nil => rw [hml] at hr'; cases hr'
  | cons x xs =>
    rw [hml] at hr'
    show r.create_date ≤ series_max (x :: xs)
    rcases List.mem_cons.mp hr' with h | h
    · rw [h]; exact (foldl_max_spec xs x).1
    · exact (foldl_max_spec xs x).2 _ h

/-- The `min_time` value is at most every filtered transaction's timestamp. -/
theorem min_time_le (txs : List Tx) : ∀ r ∈ txs, min_time txs ≤ r.create_date := by
  intro r hr
  have hr' : r.create_date ∈ (sorted_df txs).map (·.create_date) :=
    List.mem_map_of_mem _ ((sorted_df_perm txs).mem_iff.mpr hr)
  unfold min_time
  cases hml : (sorted_df txs).map (·.create_date) with
  | nil => rw [hml] at hr'; cases hr'
  | cons x xs =>
    rw [hml] at hr'
    show series_min (x :: xs) ≤ r.create_date
    rcases List.mem_cons.mp hr' with h | h
    · rw [h]; exact (foldl_min_spec xs x).1
    · exact (foldl_min_spec xs x).2 _ h

/-- On a nonempty filtered set, `min_time` is attained by a transaction. -/
theorem min_time_attained (txs : List Tx) (h : txs ≠ []) :
    ∃ r ∈ txs, r.create_date = min_time txs := by
  have hs : sorted_df txs ≠ [] := by
    intro h0
    apply h
    have := (sorted_df_perm txs).length_eq
    rw [h0] at this
    exact List.length_eq_zero.mp this.symm
  cases hml : (sorted_df txs).map (·.create_date) with
  | nil =>
    exact absurd (List.map_eq_nil_iff.mp hml) hs
  | cons x xs =>
    have hmem : series_min (x :: xs) ∈ x :: xs := by
      rcases foldl_min_mem xs x with h0 | h0
      · show xs.foldl min x ∈ x :: xs
        rw [h0]; exact List.mem_cons_self x xs
      · exact List.mem_cons_of_mem x h0
    rw [← hml] at hmem
    obtain ⟨r, hrmem, hre⟩ := List.mem_map.mp hmem
    refine ⟨r, (sorted_df_perm txs).mem_iff.mp hrmem, ?_⟩
    unfold min_time
    exact hre

/-- In a time-sorted list, filtering by `timestamp ≤ t` is the same as
taking the longest such prefix. -/
theorem filter_time_eq_takeWhile (t : Int) :
    ∀ l : List Tx, l.Sorted byTime →
      l.filter (fun r => decide (r.create_date ≤ t)) =
        l.takeWhile (fun r => decide (r.create_date ≤ t)) := by
  intro l
  induction l with
  | nil => intro _; rfl
  | cons x xs ih =>
    intro hs
    rw [List.sorted_cons] at hs
    by_cases hx : x.create_date ≤ t
    · simp [List.filter_cons, List.takeWhile_cons, hx, ih hs.2]
    · simp only [List.filter_cons, List.takeWhile_cons, decide_eq_true_eq, hx, if_neg,
        ite_false]
      apply List.filter_eq_nil_iff.mpr
      intro y hy
      have h1 : x.create_date ≤ y.create_date := hs.1 y hy
      simp only [decide_eq_true_eq]
      omega

/-- Taking a prefix of the length of `takeWhile` recovers `takeWhile`. -/
theorem take_takeWhile_length {α : Type} (p : α → Bool) :
    ∀ l : List α, l.take (l.takeWhile p).length = l.takeWhile p := by
  intro l
  induction l with
  | nil => rfl
  | cons x xs ih =>
    by_cases hx : p x
    · simp [List.takeWhile_cons, hx, ih]
    · simp [List.takeWhile_cons, hx]

/-- The temporal-replay slice is exactly the sorted rows with
`timestamp ≤ t`. -/
theorem subset_df_eq_filter (txs : List Tx) (t : Int) :
    subset_df txs t = (sorted_df txs).filter (fun r => decide (r.create_date ≤ t)) := by
  unfold subset_df searchsorted_right
  rw [List.countP_eq_length_filter, filter_time_eq_takeWhile t _ (sorted_df_sorted txs),
    take_takeWhile_length]

/-- Bounds of a list mean: a nonempty list of values in `[0, 100]` has its
sum-over-length in `[0, 100]`. -/
theorem mean_bounds (L : List ℚ) (hne : L ≠ []) (h : ∀ a ∈ L, 0 ≤ a ∧ a ≤ 100) :
    0 ≤ L.sum / (L.length : ℚ) ∧ L.sum / (L.length : ℚ) ≤ 100 := by
  have hlen : (0 : ℚ) < (L.length : ℚ) := by
    have : 0 < L.length := List.length_pos.mpr hne
    exact_mod_cast this
  constructor
  · exact div_nonneg (List.sum_nonneg fun a ha => (h a ha).1) (le_of_lt hlen)
  · rw [div_le_iff₀ hlen]
    have := List.sum_le_card_nsmul L 100 (fun a ha => (h a ha).2)
    simpa [nsmul_eq_mul, mul_comm] using this

/-! ## Claim theorems -/

/-- Claim **C1**: on the time-sorted filtered set, the right-biased insertion
index `idx` never exceeds the length (an out-of-range query timestamp is
not an error), every row of the slice `[0, idx)` has timestamp `≤ t`,
every row at position `≥ idx` has timestamp `> t`, the slice is exactly
the sorted rows with timestamp `≤ t`, querying at the maximum timestamp
yields the full sorted set, and querying strictly before the minimum
timestamp yields the empty set. -/
theorem C1_temporal_slice (txs : List Tx) (t : Int) :
    searchsorted_right (sorted_df txs) t ≤ (sorted_df txs).length ∧
    (∀ r ∈ subset_df txs t, r.create_date ≤ t) ∧
    (∀ r ∈ (sorted_df txs).drop (searchsorted_right (sorted_df txs) t),
      t < r.create_date) ∧
    subset_df txs t = (sorted_df txs).filter (fun r => decide (r.create_date ≤ t)) ∧
    subset_df txs (max_time txs) = sorted_df txs ∧
    (t < min_time txs → subset_df txs t = []) := by
  have hfil := subset_df_eq_filter txs t
  have hmem : ∀ r ∈ subset_df txs t, r.create_date ≤ t := by
    intro r hr
    rw [hfil] at hr
    simpa using (List.mem_filter.mp hr).2
  refine ⟨List.countP_le_length _, hmem, ?_, hfil, ?_, ?_⟩
  · intro r hr
    have htake : (sorted_df txs).take (searchsorted_right (sorted_df txs) t) =
        (sorted_df txs).filter (fun r => decide (r.create_date ≤ t)) := hfil
    have hsplit : (sorted_df txs).filter (fun r => decide (r.create_date ≤ t)) =
        ((sorted_df txs).take (searchsorted_right (sorted_df txs) t)).filter
          (fun r => decide (r.create_date ≤ t)) ++
        ((sorted_df txs).drop (searchsorted_right (sorted_df txs) t)).filter
          (fun r => decide (r.create_date ≤ t)) := by
      rw [← List.filter_append, List.take_append_drop]
    have hfself : ((sorted_df txs).take (searchsorted_right (sorted_df txs) t)).filter
        (fun r => decide (r.create_date ≤ t)) =
        (sorted_df txs).take (searchsorted_right (sorted_df txs) t) := by
      rw [htake]
      exact List.filter_eq_self.mpr (fun a ha => (List.mem_filter.mp ha).2)
    rw [hfself, ← htake] at hsplit
    have hnil : ((sorted_df txs).drop (searchsorted_right (sorted_df txs) t)).filter
        (fun r => decide (r.create_date ≤ t)) = [] := by
      have hlen := congrArg List.length hsplit
      rw [List.length_append] at hlen
      have : (((sorted_df txs).drop (searchsorted_right (sorted_df txs) t)).filter
          (fun r => decide (r.create_date ≤ t))).length = 0 := by omega
      exact List.length_eq_zero.mp this
    have := List.filter_eq_nil_iff.mp hnil r hr
    simp only [decide_eq_true_eq] at this
    omega
  · have hall : searchsorted_right (sorted_df txs) (max_time txs) =
        (sorted_df txs).length := by
      apply List.countP_eq_length.mpr
      intro r hr
      simpa using le_max_time txs r ((sorted_df_perm txs).mem_iff.mp hr)
    unfold subset_df
    rw [hall, List.take_length]
  · intro ht
    have hz : searchsorted_right (sorted_df txs) t = 0 := by
      apply List.countP_eq_zero.mpr
      intro r hr
      have := min_time_le txs r ((sorted_df_perm txs).mem_iff.mp hr)
      simp only [decide_eq_true_eq]
      omega
    unfold subset_df
    rw [hz, List.take_zero]

/-- Concrete instantiation of `C1_temporal_slice`: with one transaction at
time `0`, a query at `t = 0` keeps it in the slice, and a query at
`t = -1` (strictly before the minimum) yields the empty slice. -/
theorem C1_temporal_slice_witness :
    (⟨1, 0, 1, 1, -10⟩ : Tx).create_date ≤ 0 ∧
    subset_df [⟨1, 0, 1, 1, -10⟩] (-1) = [] := by
  constructor
  · exact (C1_temporal_slice [⟨1, 0, 1, 1, -10⟩] 0).2.1 ⟨1, 0, 1, 1, -10⟩ (by decide)
  · exact (C1_temporal_slice [⟨1, 0, 1, 1, -10⟩] (-1)).2.2.2.2.2 (by decide)

/-- Claim **C2**: the axis bounds are a function of the filtered set only: on a
nonempty set, `x_max = max(final cum_bet) × 1.1`, `y_min = min(final
cum_pnl) × 1.1`, `y_max = max(final cum_pnl) × 1.1` over the full final
per-user aggregate; on an empty set the fallback
`0.1 × turnover` / `1000` applies; and every snapshot produced for any
query timestamp carries exactly these bounds, so all checkpoints of one
filter share them. -/
theorem C2_axis_bounds (txs : List Tx) :
    (txs ≠ [] →
      axis_bounds txs =
        (series_max_q ((final_user_agg (sorted_df txs)).map (fun p => p.2.1)) * (11/10),
         series_min_q ((final_user_agg (sorted_df txs)).map (fun p => p.2.2)) * (11/10),
         series_max_q ((final_user_agg (sorted_df txs)).map (fun p => p.2.2)) * (11/10))) ∧
    (txs = [] →
      axis_bounds txs =
        ((if 0 < total_turnover txs then total_turnover txs * (1/10) else 1000), 0, 0)) ∧
    (∀ t s, plot_snapshot txs t = some s →
      s.range_x = (0, (axis_bounds txs).1) ∧
      s.range_y = ((axis_bounds txs).2.1, (axis_bounds txs).2.2)) ∧
    (∀ t t' s s', plot_snapshot txs t = some s → plot_snapshot txs t' = some s' →
      s.range_x = s'.range_x ∧ s.range_y = s'.range_y) := by
  have h3 : ∀ t s, plot_snapshot txs t = some s →
      s.range_x = (0, (axis_bounds txs).1) ∧
      s.range_y = ((axis_bounds txs).2.1, (axis_bounds txs).2.2) := by
    intro t s hs
    unfold plot_snapshot at hs
    split at hs
    · cases hs
    · have := Option.some.inj hs
      rw [← this]
      exact ⟨rfl, rfl⟩
  refine ⟨?_, ?_, h3, ?_⟩
  · intro hne
    have hs : sorted_df txs ≠ [] := by
      intro h0
      apply hne
      have := (sorted_df_perm txs).length_eq
      rw [h0] at this
      exact List.length_eq_zero.mp this.symm
    have hagg : final_user_agg (sorted_df txs) ≠ [] := by
      unfold final_user_agg users_of
      simp only [ne_eq, List.map_eq_nil_iff, List.dedup_eq_nil]
      exact hs
    unfold axis_bounds
    rw [if_neg hs, if_neg hagg]
  · intro h0
    subst h0
    simp [axis_bounds, sorted_df, max_bet_fallback, List.insertionSort]
  · intro t t' s s' hs hs'
    have h1 := h3 t s hs
    have h2 := h3 t' s' hs'
    exact ⟨h1.1.trans h2.1.symm, h1.2.trans h2.2.symm⟩

/-- Concrete instantiation of `C2_axis_bounds`: with a single user who bet
10 and lost it all, the bounds are `(11, -11, -11)` by the nonempty-case
formula, the empty-set fallback is `(1000, 0, 0)`, and the snapshot at
`t = 0` carries the bounds `(0, 11)` × `(-11, -11)`. -/
theorem C2_axis_bounds_witness :
    axis_bounds [⟨1, 0, 1, 1, -10⟩] =
      (series_max_q ((final_user_agg (sorted_df [⟨1, 0, 1, 1, -10⟩])).map
        (fun p => p.2.1)) * (11/10),
       series_min_q ((final_user_agg (sorted_df [⟨1, 0, 1, 1, -10⟩])).map
        (fun p => p.2.2)) * (11/10),
       series_max_q ((final_user_agg (sorted_df [⟨1, 0, 1, 1, -10⟩])).map
        (fun p => p.2.2)) * (11/10)) ∧
    axis_bounds [] = (1000, 0, 0) ∧
    (Snapshot.mk [(1, 10, -10, "Loser (输)")] (0, 11) (-11, -11)).range_x =
      (0, (axis_bounds [⟨1, 0, 1, 1, -10⟩]).1) := by
  refine ⟨(C2_axis_bounds [⟨1, 0, 1, 1, -10⟩]).1 (by decide), ?_, ?_⟩
  · have h := (C2_axis_bounds []).2.1 rfl
    rw [h]
    norm_num [total_turnover, bet_df]
  · have hax : axis_bounds [⟨1, 0, 1, 1, -10⟩] = (11, -11, -11) := by
      norm_num [axis_bounds, final_user_agg, users_of, cum_bet_of, cum_pnl_of,
        user_total_bet, user_total_pnl, user_rows, bet_df, sorted_df,
        List.insertionSort, series_max_q, series_min_q, max_bet_fallback,
        total_turnover]
    have hsub : subset_df [⟨1, 0, 1, 1, -10⟩] 0 = [⟨1, 0, 1, 1, -10⟩] := by decide
    have hs : plot_snapshot [⟨1, 0, 1, 1, -10⟩] 0 =
        some (Snapshot.mk [(1, 10, -10, "Loser (输)")] (0, 11) (-11, -11)) := by
      norm_num [plot_snapshot, hsub, hax, users_of, cum_bet_of, cum_pnl_of,
        user_total_bet, user_total_pnl, user_rows, bet_df]
    exact ((C2_axis_bounds [⟨1, 0, 1, 1, -10⟩]).2.2.1 0
      (Snapshot.mk [(1, 10, -10, "Loser (输)")] (0, 11) (-11, -11)) hs).1

/-- Claim **C3**: for every game of the filtered set, the four win-multiplier
band counts add up to the game's number of winning transactions (rows
with `amount > 0`). -/
theorem C3_band_counts_partition (txs : List Tx) (g : Nat) :
    (analyze_game_performance (game_rows txs g)).small_win +
    (analyze_game_performance (game_rows txs g)).big_win +
    (analyze_game_performance (game_rows txs g)).mega_win +
    (analyze_game_performance (game_rows txs g)).super_win
      = (win_df (game_rows txs g)).length := by
  have h := count_bands (multipliers (game_rows txs g)) (multipliers_pos _)
  have hlen : (multipliers (game_rows txs g)).length = (win_df (game_rows txs g)).length := by
    simp [multipliers]
  simpa [analyze_game_performance, hlen] using h

/-- Claim **C4**: for every filtered transaction set, turnover (absolute value of
the bet-subset sum) is nonnegative, `ggr` is exactly turnover minus total
payout, and when turnover is zero `rtp` is exactly `0` (never undefined). -/
theorem C4_kpi_identities (txs : List Tx) :
    0 ≤ total_turnover txs ∧
    ggr txs = total_turnover txs - total_payout txs ∧
    (total_turnover txs = 0 → rtp txs = 0) := by
  refine ⟨abs_nonneg _, rfl, fun h => ?_⟩
  simp [rtp, h]

/-- Concrete instantiation of `C4_kpi_identities`: the empty filtered set
has zero turnover and the theorem forces `rtp = 0` there. -/
theorem C4_kpi_identities_witness : rtp ([] : List Tx) = 0 :=
  (C4_kpi_identities []).2.2 (by decide)

/-- Claim **C5**: the average game bet defaults to `1` when the game has no
bets; each winner's multiplier `amount / avg_bet_game` is an element of
the multiplier series; and the four band conditions are half-open below
and closed above (top band open-ended): a multiplier of exactly `5` is
small, exactly `20` is big, exactly `50` is mega, and everything strictly
above `50` is super, each in exactly one band. -/
theorem C5_band_boundaries (x : List Tx) :
    (bet_df x = [] → avg_bet_game x = 1) ∧
    (∀ r ∈ win_df x, r.amount / avg_bet_game x ∈ multipliers x) ∧
    (∀ m : ℚ, (small_cond m = true ↔ 0 < m ∧ m ≤ 5) ∧
      (big_cond m = true ↔ 5 < m ∧ m ≤ 20) ∧
      (mega_cond m = true ↔ 20 < m ∧ m ≤ 50) ∧
      (super_cond m = true ↔ 50 < m)) ∧
    (small_cond 5 = true ∧ big_cond 5 = false ∧ mega_cond 5 = false ∧
      super_cond 5 = false) ∧
    (big_cond 20 = true ∧ small_cond 20 = false ∧ mega_cond 20 = false ∧
      super_cond 20 = false) ∧
    (mega_cond 50 = true ∧ small_cond 50 = false ∧ big_cond 50 = false ∧
      super_cond 50 = false) ∧
    (∀ m : ℚ, 50 < m → super_cond m = true ∧ small_cond m = false ∧
      big_cond m = false ∧ mega_cond m = false) := by
  refine ⟨?_, ?_, ?_, by decide, by decide, by decide, ?_⟩
  · intro h
    simp [avg_bet_game, h]
  · intro r hr
    exact List.mem_map_of_mem _ hr
  · intro m
    simp [small_cond, big_cond, mega_cond, super_cond]
  · intro m hm
    have h5 : ¬ m ≤ 5 := by linarith
    have h20 : ¬ m ≤ 20 := by linarith
    have h50 : ¬ m ≤ 50 := by linarith
    exact ⟨by simp [super_cond, hm], by simp [small_cond, h5],
      by simp [big_cond, h20], by simp [mega_cond, h50]⟩

/-- Concrete instantiation of `C5_band_boundaries`: a betless game has
average bet `1`, a win of `4` tokens yields multiplier `4` in the series,
and `51` is a super-band multiplier. -/
theorem C5_band_boundaries_witness :
    avg_bet_game [] = 1 ∧
    ((⟨1, 0, 1, 1, 4⟩ : Tx).amount / avg_bet_game [⟨1, 0, 1, 1, 4⟩] ∈
      multipliers [⟨1, 0, 1, 1, 4⟩]) ∧
    super_cond 51 = true := by
  refine ⟨(C5_band_boundaries []).1 rfl, ?_, ?_⟩
  · exact (C5_band_boundaries [⟨1, 0, 1, 1, 4⟩]).2.1 ⟨1, 0, 1, 1, 4⟩ (by decide)
  · exact ((C5_band_boundaries []).2.2.2.2.2.2 51 (by norm_num)).1

/-- Claim **C6**: every retention rate lies in `[0, 100]`, the average retention
lies in `[0, 100]`, and with fewer than two distinct active dates the
retention list is empty and the average retention is `0`. -/
theorem C6_retention_rates (txs : List Tx) :
    (∀ p ∈ retention_data txs, 0 ≤ p.2 ∧ p.2 ≤ 100) ∧
    (0 ≤ avg_retention txs ∧ avg_retention txs ≤ 100) ∧
    ((unique_dates txs).length < 2 →
      retention_data txs = [] ∧ avg_retention txs = 0) := by
  have hb : ∀ p ∈ retention_data txs, 0 ≤ p.2 ∧ p.2 ≤ 100 := by
    intro p hp
    unfold retention_data at hp
    obtain ⟨q, hq, rfl⟩ := List.mem_map.mp hp
    dsimp only
    by_cases hc : 0 < (users_on txs q.1).card
    · rw [if_pos hc]
      have hcq : (0 : ℚ) < ((users_on txs q.1).card : ℚ) := by exact_mod_cast hc
      have hsub : ((users_on txs q.1 ∩ users_on txs q.2).card : ℚ) ≤
          ((users_on txs q.1).card : ℚ) := by
        exact_mod_cast Finset.card_le_card Finset.inter_subset_left
      constructor
      · positivity
      · rw [div_mul_eq_mul_div, div_le_iff₀ hcq]
        nlinarith
    · rw [if_neg hc]
      norm_num
  refine ⟨hb, ?_, ?_⟩
  · by_cases h0 : retention_data txs = []
    · simp [avg_retention, h0]
    · unfold avg_retention
      rw [if_neg h0]
      have hne : ((retention_data txs).map Prod.snd) ≠ [] := by
        simpa [List.map_eq_nil_iff] using h0
      have hbnd : ∀ a ∈ (retention_data txs).map Prod.snd, 0 ≤ a ∧ a ≤ 100 := by
        intro a ha
        obtain ⟨p, hp, rfl⟩ := List.mem_map.mp ha
        exact hb p hp
      have := mean_bounds _ hne hbnd
      simpa using this
  · intro h2
    have hzip : (unique_dates txs).zip (unique_dates txs).tail = [] := by
      cases hu : unique_dates txs with
      | nil => rfl
      | cons a l =>
        cases l with
        | nil => simp
        | cons b m =>
          rw [hu] at h2
          simp only [List.length_cons] at h2
          omega
    have hr : retention_data txs = [] := by
      unfold retention_data
      rw [hzip]
      rfl
    exact ⟨hr, by simp [avg_retention, hr]⟩

/-- Concrete instantiation of `C6_retention_rates`: the empty filtered set
has no active dates, so the retention list is empty and the average is 0. -/
theorem C6_retention_rates_witness :
    retention_data ([] : List Tx) = [] ∧ avg_retention ([] : List Tx) = 0 :=
  (C6_retention_rates []).2.2 (by decide)

/-- Claim **C7**: the tag list contains "Whale" iff `total_bet > 10 × avg_bet`,
otherwise "Minnow" iff `total_bet < 0.1 × avg_bet` (never both); it always
contains exactly one result tag, "Winner" iff `total_pnl > 0`, else
"Loser" (so `total_pnl = 0` yields "Loser"); and the result tag is the
last element, so any size tag precedes it. -/
theorem C7_user_tags (ud : List Tx) (ab : ℚ) :
    ("Whale (大R)" ∈ user_tags_list ud ab ↔ ab * 10 < user_total_bet ud) ∧
    ("Minnow (小R)" ∈ user_tags_list ud ab ↔
      (¬ ab * 10 < user_total_bet ud ∧ user_total_bet ud < ab * (1/10))) ∧
    ¬ ("Whale (大R)" ∈ user_tags_list ud ab ∧ "Minnow (小R)" ∈ user_tags_list ud ab) ∧
    ("Winner (赢家)" ∈ user_tags_list ud ab ↔ 0 < user_total_pnl ud) ∧
    ("Loser (输家)" ∈ user_tags_list ud ab ↔ ¬ 0 < user_total_pnl ud) ∧
    (user_total_pnl ud = 0 → "Loser (输家)" ∈ user_tags_list ud ab) ∧
    (user_tags_list ud ab).getLast? =
      some (if 0 < user_total_pnl ud then "Winner (赢家)" else "Loser (输家)") := by
  unfold user_tags_list
  rcases lt_or_le (ab * 10) (user_total_bet ud) with hw | hw
  · rcases lt_or_le 0 (user_total_pnl ud) with hp | hp
    · simp [hw, hp, ne_of_gt hp]
    · simp [hw, not_lt.mpr hp]
  · rcases lt_or_le (user_total_bet ud) (ab * (1/10)) with hm | hm
    · rcases lt_or_le 0 (user_total_pnl ud) with hp | hp
      · simp [not_lt.mpr hw, hm, hp, ne_of_gt hp]
      · simp [not_lt.mpr hw, hm, not_lt.mpr hp]
    · rcases lt_or_le 0 (user_total_pnl ud) with hp | hp
      · simp [not_lt.mpr hw, not_lt.mpr hm, hp, ne_of_gt hp]
      · simp [not_lt.mpr hw, not_lt.mpr hm, not_lt.mpr hp]

/-- Concrete instantiation of `C7_user_tags`: a user with no transactions
has `total_pnl = 0` and is tagged "Loser". -/
theorem C7_user_tags_witness : "Loser (输家)" ∈ user_tags_list [] 0 :=
  (C7_user_tags [] 0).2.2.2.2.2.1 (by decide)

/-- Claim **C8**: a transaction with `amount = 0`, wherever it sits in the
filtered set, lands in neither the bet subset nor the win subset, so
turnover, payout, spin count and the hit rate are unchanged by it —
yet it is retained in the Raw Data view. -/
theorem C8_zero_amount_excluded (l1 l2 : List Tx) (tx : Tx) (h : tx.amount = 0) :
    bet_df (l1 ++ tx :: l2) = bet_df (l1 ++ l2) ∧
    win_df (l1 ++ tx :: l2) = win_df (l1 ++ l2) ∧
    total_turnover (l1 ++ tx :: l2) = total_turnover (l1 ++ l2) ∧
    total_payout (l1 ++ tx :: l2) = total_payout (l1 ++ l2) ∧
    spin_count (l1 ++ tx :: l2) = spin_count (l1 ++ l2) ∧
    win_rate (l1 ++ tx :: l2) = win_rate (l1 ++ l2) ∧
    tx ∈ display_df (l1 ++ tx :: l2) := by
  have hb : bet_df (l1 ++ tx :: l2) = bet_df (l1 ++ l2) := by
    simp [bet_df, List.filter_append, List.filter_cons, h]
  have hw : win_df (l1 ++ tx :: l2) = win_df (l1 ++ l2) := by
    simp [win_df, List.filter_append, List.filter_cons, h]
  refine ⟨hb, hw, ?_, ?_, ?_, ?_, ?_⟩
  · simp [total_turnover, hb]
  · simp [total_payout, hw]
  · simp [spin_count, hb]
  · simp [win_rate, spin_count, hb, hw]
  · have hperm := List.perm_insertionSort
      (fun a b : Tx => b.create_date ≤ a.create_date) (l1 ++ tx :: l2)
    exact hperm.mem_iff.mpr (List.mem_append_right l1 (List.mem_cons_self tx l2))

/-- Concrete instantiation of `C8_zero_amount_excluded` at a zero-amount
row between two real rows. -/
theorem C8_zero_amount_excluded_witness :
    spin_count [⟨1, 0, 1, 1, -10⟩, ⟨2, 1, 1, 1, 0⟩, ⟨3, 2, 1, 1, 4⟩] =
      spin_count [⟨1, 0, 1, 1, -10⟩, ⟨3, 2, 1, 1, 4⟩] ∧
    (⟨2, 1, 1, 1, 0⟩ : Tx) ∈ display_df [⟨1, 0, 1, 1, -10⟩, ⟨2, 1, 1, 1, 0⟩, ⟨3, 2, 1, 1, 4⟩] := by
  have h := C8_zero_amount_excluded [⟨1, 0, 1, 1, -10⟩] [⟨3, 2, 1, 1, 4⟩] ⟨2, 1, 1, 1, 0⟩ rfl
  exact ⟨h.2.2.2.2.1, h.2.2.2.2.2.2⟩

/-- Claim **C9**: a game whose filtered set has exactly one transaction gets a
NaN volatility (pandas sample std with ddof=1 of a single value, modelled
as `none`), while a game with at least two transactions gets the sample
standard deviation of all its signed amounts (carried as the sample
variance, its square). -/
theorem C9_volatility_single_nan (txs : List Tx) (g : Nat) :
    ((game_rows txs g).length = 1 →
      (analyze_game_performance (game_rows txs g)).volatility = none) ∧
    (2 ≤ (game_rows txs g).length →
      (analyze_game_performance (game_rows txs g)).volatility =
        some (sample_variance ((game_rows txs g).map (·.amount)))) := by
  constructor
  · intro h
    simp [analyze_game_performance, series_std_sq, h]
  · intro h
    simp [analyze_game_performance, series_std_sq, h]

/-- Concrete instantiation of `C9_volatility_single_nan`: a one-transaction
game has `volatility = none`; a two-transaction game has the sample
variance of its amounts. -/
theorem C9_volatility_single_nan_witness :
    (analyze_game_performance (game_rows [⟨1, 0, 1, 7, 5⟩] 7)).volatility = none ∧
    (analyze_game_performance (game_rows [⟨1, 0, 1, 7, -10⟩, ⟨2, 1, 1, 7, 14⟩] 7)).volatility =
      some (sample_variance ((game_rows [⟨1, 0, 1, 7, -10⟩, ⟨2, 1, 1, 7, 14⟩] 7).map (·.amount))) := by
  constructor
  · exact (C9_volatility_single_nan [⟨1, 0, 1, 7, 5⟩] 7).1 (by decide)
  · exact (C9_volatility_single_nan [⟨1, 0, 1, 7, -10⟩, ⟨2, 1, 1, 7, 14⟩] 7).2 (by decide)

/-- Claim **C10**: the snapshot function returns `None` exactly when the
right-biased slice is empty; a snapshot object is produced iff the sliced
prefix is nonempty; and on a nonempty filtered set, `None` happens exactly
for query timestamps strictly before the minimum transaction timestamp. -/
theorem C10_snapshot_none_iff (txs : List Tx) (t : Int) :
    (plot_snapshot txs t = none ↔ subset_df txs t = []) ∧
    ((∃ s, plot_snapshot txs t = some s) ↔ subset_df txs t ≠ []) ∧
    (txs ≠ [] → (plot_snapshot txs t = none ↔ t < min_time txs)) := by
  have hiff : plot_snapshot txs t = none ↔ subset_df txs t = [] := by
    unfold plot_snapshot
    by_cases h : subset_df txs t = [] <;> simp [h]
  refine ⟨hiff, ?_, ?_⟩
  · constructor
    · rintro ⟨s, hs⟩ h0
      rw [hiff.mpr h0] at hs
      cases hs
    · intro h0
      cases hp : plot_snapshot txs t with
      | none => exact absurd (hiff.mp hp) h0
      | some s => exact ⟨s, rfl⟩
  · intro hne
    rw [hiff]
    constructor
    · intro h0
      have hcases : searchsorted_right (sorted_df txs) t = 0 ∨ sorted_df txs = [] := by
        unfold subset_df at h0
        exact List.take_eq_nil_iff.mp h0
      have hsne : sorted_df txs ≠ [] := by
        intro hnil
        apply hne
        have := (sorted_df_perm txs).length_eq
        rw [hnil] at this
        exact List.length_eq_zero.mp this.symm
      rcases hcases with hz | hnil
      · obtain ⟨r, hrmem, hre⟩ := min_time_attained txs hne
        have hr' : r ∈ sorted_df txs := (sorted_df_perm txs).mem_iff.mpr hrmem
        have := List.countP_eq_zero.mp hz r hr'
        simp only [decide_eq_true_eq] at this
        omega
      · exact absurd hnil hsne
    · intro hlt
      have hz : searchsorted_right (sorted_df txs) t = 0 := by
        apply List.countP_eq_zero.mpr
        intro r hr
        have := min_time_le txs r ((sorted_df_perm txs).mem_iff.mp hr)
        simp only [decide_eq_true_eq]
        omega
      unfold subset_df
      rw [hz, List.take_zero]

/-- Concrete instantiation of `C10_snapshot_none_iff`: querying one
transaction at time `0` with `t = -1` (before the minimum) produces no
snapshot object. -/
theorem C10_snapshot_none_iff_witness :
    plot_snapshot [⟨1, 0, 1, 1, -10⟩] (-1) = none :=
  ((C10_snapshot_none_iff [⟨1, 0, 1, 1, -10⟩] (-1)).2.2 (by decide)).mpr (by decide)
